import Mathlib

/-!
Verification of the "Муссон" furnace selection calculator (`app.py`).

The development shallowly embeds the computational core of the program:
the material table, the wall R-value calculator, the heat-loss
calculator, the burn-curve simulator, and the recommendation engine
(model selection, cascade fallback, refuel-time walk).

Machine floats of the source are modelled as exact rationals (`ℚ`);
`math.sqrt` forces the heat-loss calculator to live in `ℝ`.
Python's raising division is modelled with `Option`: `pydiv a b` is
`none` exactly when Python's `a / b` raises `ZeroDivisionError`, and
a function whose body can raise returns `Option` results.
-/

/-- Python `int(x)` on a rational: truncation toward zero. -/
def pyInt (x : ℚ) : ℤ := if 0 ≤ x then ⌊x⌋ else ⌈x⌉

/-- Python division `a / b`: raises (`none`) exactly when `b = 0`. -/
def pydiv (a b : ℚ) : Option ℚ := if b = 0 then none else some (a / b)

/-- Thermal conductivities, W/(m·K) (`MATERIALS` dict of `app.py`). -/
def MATERIALS : List (String × ℚ) :=
  [("Кирпич", 81/100),
   ("Газоблок", 12/100),
   ("Дерево (брус)", 18/100),
   ("Сэндвич-панель", 4/100),
   ("Минеральная вата", 45/1000),
   ("OSB", 13/100),
   ("Профнастил (сталь)", 58)]

/-- Python `MATERIALS.get(m, d)`: table lookup with default. -/
def materials_get (m : String) (d : ℚ) : ℚ := (List.lookup m MATERIALS).getD d

/-- Python `MATERIALS[m]` for a key present in the table (the `getD 0`
branch is unreachable for the literal keys the source uses). -/
def materials_index (m : String) : ℚ := (List.lookup m MATERIALS).getD 0

/-- Interior surface resistance constant `R_SI` of `app.py`. -/
def R_SI : ℚ := 13/100

/-- Exterior surface resistance constant `R_SE` of `app.py`. -/
def R_SE : ℚ := 4/100

/-- Furnace catalog entry (`MUSSON_MODELS` values of `app.py`). -/
structure FurnaceModel where
  volume_l : ℚ
  duct_count : ℕ
  duct_diameter_mm : ℚ
deriving DecidableEq

/-- The furnace catalog, in source (insertion) order. -/
def MUSSON_MODELS : List (String × FurnaceModel) :=
  [("Муссон 300", ⟨77, 2, 133⟩),
   ("Муссон 600", ⟨125, 3, 133⟩),
   ("Муссон 1000", ⟨200, 3, 133⟩),
   ("Муссон 1500", ⟨311, 4, 133⟩),
   ("Муссон 2000", ⟨467, 4, 159⟩)]

/-- Wood species (`WOOD_TYPES` keys of `app.py`), a closed enumeration:
the interface layer only ever passes one of the three table keys. -/
inductive WoodType where
  | hvoynye
  | beryoza
  | dub
deriving DecidableEq

/-- Density column of `WOOD_TYPES`, kg/m³. -/
def WoodType.density : WoodType → ℚ
  | .hvoynye => 350
  | .beryoza => 450
  | .dub => 550

/-- Specific-energy column of `WOOD_TYPES`, MJ/kg. -/
def WoodType.q_mj_kg : WoodType → ℚ
  | .hvoynye => 17
  | .beryoza => 18
  | .dub => 39/2

/-- `calculate_wall_r_value` of `app.py`.  The Python default argument
`min_wool_thickness_m=0.05` is made explicit. -/
def calculate_wall_r_value (material_type : String)
    (wall_thickness_m min_wool_thickness_m : ℚ) : ℚ :=
  let r_layers :=
    if material_type = "Минеральная вата с обшивкой" then
      let r_osb := (9/1000) / materials_index ("OSB")
      let r_wool := min_wool_thickness_m / materials_index ("Минеральная вата")
      let r_steel := (5/10000) / materials_index ("Профнастил (сталь)")
      r_osb + r_wool + r_steel
    else
      let lambda_wall := materials_get material_type (81/100)
      wall_thickness_m / lambda_wall
  R_SI + r_layers + R_SE

/-- `calculate_heat_loss` of `app.py` (over `ℝ` because of `math.sqrt`). -/
noncomputable def calculate_heat_loss
    (area height wall_r_value floor_r_value ceiling_r_value t_in t_out : ℝ) : ℝ :=
  let delta_t := t_in - t_out
  if delta_t ≤ 0 then 0
  else
    let perimeter := 2 * (Real.sqrt area + Real.sqrt area)
    let wall_area := perimeter * height
    let floor_area := area
    let ceiling_area := area
    let q_walls := wall_area * delta_t / wall_r_value
    let q_floor := floor_area * delta_t / floor_r_value
    let q_ceiling := ceiling_area * delta_t / ceiling_r_value
    (q_walls + q_floor + q_ceiling) / 1000

/-- Usable fuel energy in kWh (lines 89–94 of `app.py`):
`total_kwh = (q_fuel_mj / 3.6) * efficiency`. -/
def fuel_total_kwh (volume_l fill_fraction : ℚ) (w : WoodType) (efficiency : ℚ) : ℚ :=
  ((volume_l / 1000 * fill_fraction * w.density * w.q_mj_kg) / (36/10)) * efficiency

/-- Average power (line 99 of `app.py`, also recomputed at line 211):
`total_kwh / burn_hours if burn_hours > 0 else 0`. -/
def avg_power_kw (volume_l fill_fraction : ℚ) (w : WoodType) (efficiency burn_hours : ℚ) : ℚ :=
  if burn_hours > 0 then fuel_total_kwh volume_l fill_fraction w efficiency / burn_hours else 0

/-- Sample times (line 102 of `app.py`):
`[i * 0.5 for i in range(int(burn_hours * 2) + 1)]`. -/
def time_points (burn_hours : ℚ) : List ℚ :=
  (List.range (pyInt (burn_hours * 2) + 1).toNat).map (fun (i : ℕ) => (i : ℚ) * (1/2))

/-- The power-sampling loop (lines 103–107 of `app.py`).  Each iteration
computes `max(0, peak_power_kw * (1 - t / burn_hours))`; the division
raises (propagates `none`) when `burn_hours = 0`. -/
def power_points (peak_power_kw burn_hours : ℚ) : List ℚ → Option (List ℚ)
  | [] => some []
  | t :: rest =>
    match pydiv t burn_hours with
    | none => none
    | some r =>
      match power_points peak_power_kw burn_hours rest with
      | none => none
      | some ps => some (max 0 (peak_power_kw * (1 - r)) :: ps)

/-- `get_furnace_power_curve` of `app.py`.  Returns
`(time_points, power_points, total_kwh)`, or `none` where the Python
function raises `ZeroDivisionError`. -/
def get_furnace_power_curve (volume_l fill_fraction : ℚ) (wood_type : WoodType)
    (efficiency burn_hours : ℚ) : Option (List ℚ × List ℚ × ℚ) :=
  let total_kwh := fuel_total_kwh volume_l fill_fraction wood_type efficiency
  let avg := avg_power_kw volume_l fill_fraction wood_type efficiency burn_hours
  let peak_power_kw := avg * 2
  let tp := time_points burn_hours
  match power_points peak_power_kw burn_hours tp with
  | none => none
  | some pp => some (tp, pp, total_kwh)

/-- Per-model data accumulated by the loop at lines 209–218 of `app.py`. -/
structure ModelData where
  model : String
  time : List ℚ
  power : List ℚ
  avg_power : ℚ
deriving DecidableEq

/-- The model loop body of lines 209–218: for each catalog entry compute
the curve and the average power.  `none` if any curve computation raises. -/
def modelsData (fill_fraction : ℚ) (w : WoodType) (efficiency burn_hours : ℚ) :
    List (String × FurnaceModel) → Option (List ModelData)
  | [] => some []
  | (model_name, params) :: rest =>
    match get_furnace_power_curve params.volume_l fill_fraction w efficiency burn_hours with
    | none => none
    | some (time_pts, power_pts, total_kwh) =>
      let avg := if burn_hours > 0 then total_kwh / burn_hours else 0
      match modelsData fill_fraction w efficiency burn_hours rest with
      | none => none
      | some rest_data => some (⟨model_name, time_pts, power_pts, avg⟩ :: rest_data)

/-- `all_models_data` of `app.py` (the loop run over the whole catalog). -/
def all_models_data (fill_fraction : ℚ) (w : WoodType) (efficiency burn_hours : ℚ) :
    Option (List ModelData) :=
  modelsData fill_fraction w efficiency burn_hours MUSSON_MODELS

/-- One step of the selection loop (lines 220–223 of `app.py`):
`if avg_power >= required_power_with_margin and avg_power > best_model_avg_power`. -/
def selectStep (required_power_with_margin : ℚ) (acc : Option String × ℚ)
    (d : ModelData) : Option String × ℚ :=
  if d.avg_power ≥ required_power_with_margin ∧ d.avg_power > acc.2 then
    (some d.model, d.avg_power)
  else acc

/-- The whole selection loop: start from `(None, 0)` as at lines 206–207. -/
def selectRecommended (required_power_with_margin : ℚ) (models : List ModelData) :
    Option String × ℚ :=
  models.foldl (selectStep required_power_with_margin) (none, 0)

/-- Python `max(list, key=lambda x: x.avg_power)` starting from `b`:
keeps the first-seen maximal element. -/
def maxByAvgAux (b : ModelData) : List ModelData → ModelData
  | [] => b
  | d :: rest => maxByAvgAux (if d.avg_power > b.avg_power then d else b) rest

/-- The cascade computation of lines 234–243 of `app.py`.  The `[]` case
is unreachable: the catalog is nonempty (Python's `max` would raise). -/
def cascadeOpt (heat_loss_kw required_power_with_margin : ℚ)
    (recommended : Option String) : List ModelData → Option (ℤ × String)
  | [] => none
  | m :: rest =>
    if recommended = none ∧ heat_loss_kw > 0 then
      let most_powerful := maxByAvgAux m rest
      if most_powerful.avg_power > 0 then
        let num_furnaces := ⌈required_power_with_margin / most_powerful.avg_power⌉
        if num_furnaces > 1 then some (num_furnaces, most_powerful.model) else none
      else none
    else none

/-- The refuel-time loop of lines 252–257 of `app.py`:
`for t, p in zip(times, powers): if p >= required: refuel_time = t else: break`. -/
def refuelLoop (required_power_with_margin refuel_time : ℚ) : List (ℚ × ℚ) → ℚ
  | [] => refuel_time
  | (t, p) :: rest =>
    if p ≥ required_power_with_margin then refuelLoop required_power_with_margin t rest
    else refuel_time

/-- All outputs of one evaluation of the recommendation engine. -/
structure AppResult where
  models : List ModelData
  recommended_model : Option String
  best_model_avg_power : ℚ
  cascade_option : Option (ℤ × String)
  refuel_time : ℚ
deriving DecidableEq

/-- Lines 248–257 of `app.py`: when a model is recommended, locate its
data (`next(item for item in all_models_data if ...)`) and walk its
curve; the report call at line 319 passes `0` when nothing is
recommended. -/
def refuelFor (required_power_with_margin : ℚ) (recommended : Option String)
    (models : List ModelData) : ℚ :=
  match recommended with
  | none => 0
  | some name =>
    match models.find? (fun item => item.model = name) with
    | none => 0
    | some rec_data =>
      refuelLoop required_power_with_margin 0 (rec_data.time.zip rec_data.power)

/-- The full engine pipeline of lines 194–257 of `app.py`, parametrized
by the already-computed heat loss: margin, per-model data, selection,
cascade fallback, and refuel-time walk for the recommended model. -/
def runApp (heat_loss_kw fill_fraction : ℚ) (w : WoodType)
    (efficiency burn_hours : ℚ) : Option AppResult :=
  let required_power_with_margin := heat_loss_kw * (12/10)
  match all_models_data fill_fraction w efficiency burn_hours with
  | none => none
  | some models =>
    let sel := selectRecommended required_power_with_margin models
    some ⟨models, sel.1, sel.2,
      cascadeOpt heat_loss_kw required_power_with_margin sel.1 models,
      refuelFor required_power_with_margin sel.1 models⟩

/-- Modelled from the spec: the trapezoidal integral of a sampled curve,
`Σ (p_i + p_{i+1}) / 2 · (t_{i+1} - t_i)` — the spec's round-trip check
(§8.3) references this integral; it is not part of the source. -/
def trapezoidSum : List ℚ → List ℚ → ℚ
  | t1 :: t2 :: ts, p1 :: p2 :: ps =>
    (p1 + p2) / 2 * (t2 - t1) + trapezoidSum (t2 :: ts) (p2 :: ps)
  | _, _ => 0

/-! ### Curve characterization lemmas -/

/-- The sampling loop never raises when the burn duration is nonzero,
and produces exactly the clamped linear-decay samples. -/
theorem power_points_eq (pk b : ℚ) (hb : b ≠ 0) (l : List ℚ) :
    power_points pk b l = some (l.map (fun t => max 0 (pk * (1 - t / b)))) := by
  induction l with
  | nil => rfl
  | cons t rest ih => simp [power_points, pydiv, hb, ih]

/-- Closed form of `get_furnace_power_curve` for a nonzero burn duration. -/
theorem curve_char (v f e d : ℚ) (w : WoodType) (hd : d ≠ 0) :
    get_furnace_power_curve v f w e d =
      some (time_points d,
        (time_points d).map
          (fun t => max 0 (avg_power_kw v f w e d * 2 * (1 - t / d))),
        fuel_total_kwh v f w e) := by
  rw [get_furnace_power_curve, power_points_eq _ _ hd]

/-- The curve computation raises (`ZeroDivisionError`) at zero duration:
the time list is `[0.0]` and the first iteration divides by zero. -/
theorem curve_zero_raises (v f e : ℚ) (w : WoodType) :
    get_furnace_power_curve v f w e 0 = none := by
  have h1 : pyInt ((0 : ℚ) * 2) = 0 := by norm_num [pyInt]
  have h2 : time_points 0 = [0] := by
    rw [time_points, h1]
    have h3 : ((0 : ℤ) + 1).toNat = 1 := rfl
    rw [h3]
    have h4 : List.range 1 = [0] := rfl
    rw [h4]
    norm_num
  rw [get_furnace_power_curve, h2]
  simp [power_points, pydiv]

/-- Closed form of the per-model loop for a nonzero burn duration. -/
theorem modelsData_eq (f : ℚ) (w : WoodType) (e d : ℚ) (hd : d ≠ 0)
    (src : List (String × FurnaceModel)) :
    modelsData f w e d src =
      some (src.map (fun p =>
        ⟨p.1, time_points d,
         (time_points d).map
           (fun t => max 0 (avg_power_kw p.2.volume_l f w e d * 2 * (1 - t / d))),
         avg_power_kw p.2.volume_l f w e d⟩)) := by
  induction src with
  | nil => rfl
  | cons p rest ih =>
    obtain ⟨name, params⟩ := p
    rw [modelsData, curve_char _ _ _ _ _ hd, ih]
    rfl

/-- Destructuring a successful engine run into its stages. -/
theorem runApp_some (hl f e d : ℚ) (w : WoodType) (r : AppResult)
    (h : runApp hl f w e d = some r) :
    all_models_data f w e d = some r.models ∧
    r.recommended_model = (selectRecommended (hl * (12/10)) r.models).1 ∧
    r.best_model_avg_power = (selectRecommended (hl * (12/10)) r.models).2 ∧
    r.cascade_option = cascadeOpt hl (hl * (12/10)) r.recommended_model r.models ∧
    r.refuel_time = refuelFor (hl * (12/10)) r.recommended_model r.models := by
  rw [runApp] at h
  cases hm : all_models_data f w e d with
  | none => rw [hm] at h; exact absurd h (by simp)
  | some models =>
    rw [hm] at h
    simp only [Option.some_inj] at h
    subst h
    exact ⟨rfl, rfl, rfl, rfl, rfl⟩

/-! ### Selection-fold lemmas -/

/-- The running best only grows along the selection loop. -/
theorem selectFold_le (req : ℚ) (l : List ModelData) (acc : Option String × ℚ) :
    acc.2 ≤ (List.foldl (selectStep req) acc l).2 := by
  induction l generalizing acc with
  | nil => simp
  | cons d rest ih =>
    rw [List.foldl_cons]
    refine le_trans ?_ (ih (selectStep req acc d))
    rw [selectStep]
    split
    · next h => exact le_of_lt h.2
    · exact le_rfl

/-- Every qualifying model's average power is bounded by the final best. -/
theorem selectFold_max (req : ℚ) (l : List ModelData) (acc : Option String × ℚ) :
    ∀ md ∈ l, req ≤ md.avg_power →
      md.avg_power ≤ (List.foldl (selectStep req) acc l).2 := by
  induction l generalizing acc with
  | nil => simp
  | cons d rest ih =>
    intro md hmd hq
    rw [List.foldl_cons]
    rcases List.mem_cons.mp hmd with h | h
    · subst h
      refine le_trans ?_ (selectFold_le req rest (selectStep req acc md))
      rw [selectStep]
      split
      · exact le_rfl
      · next hc =>
        push_neg at hc
        exact hc hq
    · exact ih (selectStep req acc d) md h hq

/-- Structure of the selection fold: either nothing was ever selected and
the accumulator comes back unchanged, or the result is the first-seen
qualifying model whose average power strictly dominates every earlier
qualifying model. -/
theorem selectFold_split (req : ℚ) (l : List ModelData) (acc : Option String × ℚ) :
    List.foldl (selectStep req) acc l = acc ∨
    ∃ l₁ md l₂, l = l₁ ++ md :: l₂ ∧
      List.foldl (selectStep req) acc l = (some md.model, md.avg_power) ∧
      req ≤ md.avg_power ∧ acc.2 < md.avg_power ∧
      ∀ md' ∈ l₁, req ≤ md'.avg_power → md'.avg_power < md.avg_power := by
  induction l generalizing acc with
  | nil => exact Or.inl rfl
  | cons d rest ih =>
    rw [List.foldl_cons]
    by_cases hc : d.avg_power ≥ req ∧ d.avg_power > acc.2
    · have hstep : selectStep req acc d = (some d.model, d.avg_power) := by
        rw [selectStep, if_pos hc]
      rw [hstep]
      rcases ih (some d.model, d.avg_power) with h | ⟨l₁, md, l₂, heq, hres, hq, hlt, hpre⟩
      · exact Or.inr ⟨[], d, rest, rfl, h, hc.1, hc.2, by simp⟩
      · refine Or.inr ⟨d :: l₁, md, l₂, by rw [heq]; rfl, hres, hq,
          lt_trans hc.2 hlt, ?_⟩
        intro md' hmd' hq'
        rcases List.mem_cons.mp hmd' with h' | h'
        · subst h'; exact hlt
        · exact hpre md' h' hq'
    · have hstep : selectStep req acc d = acc := by
        rw [selectStep, if_neg hc]
      rw [hstep]
      rcases ih acc with h | ⟨l₁, md, l₂, heq, hres, hq, hlt, hpre⟩
      · exact Or.inl h
      · refine Or.inr ⟨d :: l₁, md, l₂, by rw [heq]; rfl, hres, hq, hlt, ?_⟩
        intro md' hmd' hq'
        rcases List.mem_cons.mp hmd' with h' | h'
        · subst h'
          push_neg at hc
          exact lt_of_le_of_lt (hc hq') hlt
        · exact hpre md' h' hq'

/-! ### Python `max` lemmas -/

/-- The starting element never beats the computed maximum. -/
theorem maxByAvgAux_le (b : ModelData) (l : List ModelData) :
    b.avg_power ≤ (maxByAvgAux b l).avg_power := by
  induction l generalizing b with
  | nil => exact le_rfl
  | cons d rest ih =>
    rw [maxByAvgAux]
    refine le_trans ?_ (ih (if d.avg_power > b.avg_power then d else b))
    split
    · next h => exact le_of_lt h
    · exact le_rfl

/-- Python `max` by average power dominates every list element. -/
theorem maxByAvgAux_max (b : ModelData) (l : List ModelData) :
    ∀ md ∈ l, md.avg_power ≤ (maxByAvgAux b l).avg_power := by
  induction l generalizing b with
  | nil => simp
  | cons d rest ih =>
    intro md hmd
    rw [maxByAvgAux]
    rcases List.mem_cons.mp hmd with h | h
    · subst h
      refine le_trans ?_ (maxByAvgAux_le (if md.avg_power > b.avg_power then md else b) rest)
      split
      · exact le_rfl
      · next hn => exact le_of_not_lt hn
    · exact ih (if d.avg_power > b.avg_power then d else b) md h

/-- Python `max` returns one of its candidates. -/
theorem maxByAvgAux_mem (b : ModelData) (l : List ModelData) :
    maxByAvgAux b l ∈ b :: l := by
  induction l generalizing b with
  | nil => exact List.mem_singleton.mpr rfl
  | cons d rest ih =>
    rw [maxByAvgAux]
    have h := ih (if d.avg_power > b.avg_power then d else b)
    rcases List.mem_cons.mp h with h' | h'
    · rw [h']
      split
      · exact List.mem_cons_of_mem _ (List.mem_cons_self _ _)
      · exact List.mem_cons_self _ _
    · exact List.mem_cons_of_mem _ (List.mem_cons_of_mem _ h')

/-! ### Refuel-loop lemmas -/

/-- Replacing the accumulator with the head of a cons list in `getLast?`. -/
theorem getLast_getD_cons (a c : ℚ) (xs : List ℚ) :
    ((a :: xs).getLast?).getD c = (xs.getLast?).getD a := by
  cases xs with
  | nil => rfl
  | cons b ys => rw [List.getLast?_cons_cons]; rfl

/-- Structure of the refuel walk: the list splits into a maximal prefix
of samples meeting the threshold (the walk stops at the first sample
below it), and the result is the last time of that prefix, or the
accumulator if the prefix is empty. -/
theorem refuelLoop_split (req acc : ℚ) (l : List (ℚ × ℚ)) :
    ∃ l₁ l₂, l = l₁ ++ l₂ ∧ (∀ pr ∈ l₁, req ≤ pr.2) ∧
      (∀ pr ∈ l₂.head?, pr.2 < req) ∧
      refuelLoop req acc l = ((l₁.map Prod.fst).getLast?).getD acc := by
  induction l generalizing acc with
  | nil => exact ⟨[], [], rfl, by simp, by simp, by rw [refuelLoop]; rfl⟩
  | cons pr rest ih =>
    obtain ⟨t, p⟩ := pr
    by_cases hp : p ≥ req
    · obtain ⟨l₁, l₂, heq, h1, h2, h3⟩ := ih t
      refine ⟨(t, p) :: l₁, l₂, by rw [heq]; rfl, ?_, h2, ?_⟩
      · intro pr' hpr'
        rcases List.mem_cons.mp hpr' with h' | h'
        · subst h'; exact hp
        · exact h1 pr' h'
      · rw [refuelLoop, if_pos hp, h3, List.map_cons, getLast_getD_cons]
    · refine ⟨[], (t, p) :: rest, rfl, by simp, ?_, ?_⟩
      · intro pr' hpr'
        simp only [List.head?_cons, Option.mem_def, Option.some_inj] at hpr'
        subst hpr'
        exact lt_of_not_ge hp
      · rw [refuelLoop, if_neg hp]; rfl

/-! ### Sample-grid lemmas -/

/-- Sample `i` of the time grid is `i · 0.5`. -/
theorem time_points_getElem (d : ℚ) (i : ℕ) (h : i < (time_points d).length) :
    (time_points d).get ⟨i, h⟩ = (i : ℚ) * (1/2) := by
  simp only [time_points, List.get_eq_getElem, List.getElem_map, List.getElem_range]

/-- The time grid is monotone in the sample index. -/
theorem time_points_mono (d : ℚ) (i j : ℕ) (hi : i < (time_points d).length)
    (hj : j < (time_points d).length) (hij : i ≤ j) :
    (time_points d).get ⟨i, hi⟩ ≤ (time_points d).get ⟨j, hj⟩ := by
  rw [time_points_getElem, time_points_getElem]
  have : (i : ℚ) ≤ (j : ℚ) := by exact_mod_cast hij
  linarith

/-- For a positive burn duration the grid is nonempty and starts at 0. -/
theorem time_points_head (d : ℚ) (hd : 0 < d) : (time_points d).head? = some 0 := by
  have h0 : (0 : ℤ) ≤ pyInt (d * 2) := by
    rw [pyInt, if_pos (by positivity : (0:ℚ) ≤ d * 2)]
    exact Int.floor_nonneg.mpr (by positivity)
  obtain ⟨k, hk⟩ : ∃ k, (pyInt (d * 2) + 1).toNat = k + 1 :=
    ⟨(pyInt (d * 2)).toNat, by omega⟩
  rw [time_points, hk, List.range_succ_eq_map]
  simp

/-- The time grid for duration `n / 2` has exactly `n + 1` samples. -/
theorem time_points_half_nat (n : ℕ) :
    time_points ((n : ℚ) / 2) =
      (List.range (n + 1)).map (fun (i : ℕ) => (i : ℚ) * (1/2)) := by
  have h1 : ((n : ℚ) / 2) * 2 = (n : ℚ) := by ring
  have h2 : pyInt ((n : ℚ)) = (n : ℤ) := by
    rw [pyInt, if_pos (by positivity)]
    exact_mod_cast Int.floor_natCast n
  have h3 : ((n : ℤ) + 1).toNat = n + 1 := by omega
  rw [time_points, h1, h2, h3]

/-- The last sample of the grid for duration `n / 2` is the duration itself. -/
theorem time_points_half_nat_getLast (n : ℕ) :
    (time_points ((n : ℚ) / 2)).getLast? = some ((n : ℚ) / 2) := by
  rw [time_points_half_nat, List.range_succ, List.map_append, List.map_singleton,
    List.getLast?_concat]
  norm_num
  ring

/-! ### Positivity helpers -/

/-- Wood density column is positive. -/
theorem density_pos (w : WoodType) : 0 < w.density := by
  cases w <;> norm_num [WoodType.density]

/-- Wood specific-energy column is positive. -/
theorem q_mj_kg_pos (w : WoodType) : 0 < w.q_mj_kg := by
  cases w <;> norm_num [WoodType.q_mj_kg]

/-- Usable energy is nonnegative for nonnegative inputs. -/
theorem fuel_total_kwh_nonneg (v f e : ℚ) (w : WoodType)
    (hv : 0 ≤ v) (hf : 0 ≤ f) (he : 0 ≤ e) : 0 ≤ fuel_total_kwh v f w e := by
  rw [fuel_total_kwh]
  have h1 := le_of_lt (density_pos w)
  have h2 := le_of_lt (q_mj_kg_pos w)
  apply mul_nonneg _ he
  apply div_nonneg _ (by norm_num)
  apply mul_nonneg (mul_nonneg (mul_nonneg (by positivity) hf) h1) h2

/-- Average power is nonnegative for nonnegative inputs (any duration). -/
theorem avg_power_kw_nonneg (v f e d : ℚ) (w : WoodType)
    (hv : 0 ≤ v) (hf : 0 ≤ f) (he : 0 ≤ e) : 0 ≤ avg_power_kw v f w e d := by
  rw [avg_power_kw]
  split
  · next hd => exact div_nonneg (fuel_total_kwh_nonneg v f e w hv hf he) (le_of_lt hd)
  · exact le_rfl

/-- Usable energy is positive for positive inputs. -/
theorem fuel_total_kwh_pos (v f e : ℚ) (w : WoodType)
    (hv : 0 < v) (hf : 0 < f) (he : 0 < e) : 0 < fuel_total_kwh v f w e := by
  rw [fuel_total_kwh]
  have h1 := density_pos w
  have h2 := q_mj_kg_pos w
  positivity

/-- Average power is positive for positive inputs and duration. -/
theorem avg_power_kw_pos (v f e d : ℚ) (w : WoodType)
    (hv : 0 < v) (hf : 0 < f) (he : 0 < e) (hd : 0 < d) :
    0 < avg_power_kw v f w e d := by
  rw [avg_power_kw, if_pos hd]
  exact div_pos (fuel_total_kwh_pos v f e w hv hf he) hd

/-- Average power is strictly monotone in the chamber volume. -/
theorem avg_power_kw_mono (v v' f e d : ℚ) (w : WoodType)
    (hv : 0 ≤ v) (hvv : v < v') (hf : 0 < f) (he : 0 < e) (hd : 0 < d) :
    avg_power_kw v f w e d < avg_power_kw v' f w e d := by
  rw [avg_power_kw, avg_power_kw, if_pos hd, if_pos hd, fuel_total_kwh, fuel_total_kwh]
  refine (div_lt_div_right hd).mpr ?_
  refine (mul_lt_mul_right he).mpr ?_
  refine (div_lt_div_right (by norm_num)).mpr ?_
  refine (mul_lt_mul_right (q_mj_kg_pos w)).mpr ?_
  refine (mul_lt_mul_right (density_pos w)).mpr ?_
  refine (mul_lt_mul_right hf).mpr ?_
  linarith

/-- Conductivity with brick fallback is positive for every material name. -/
theorem materials_get_pos (m : String) : 0 < materials_get m (81/100) := by
  rw [materials_get, MATERIALS]
  simp only [List.lookup]
  repeat' split
  all_goals norm_num

/-! ### C3 -/

/-- C3: the claim says a zero burn duration is not an error (average 0 and
all samples 0, no raise).  The code disagrees: for duration 0 the sample
list is `[0.0]` and the first loop iteration evaluates `t / burn_hours`,
raising `ZeroDivisionError` (modelled as `none`) — for every volume,
fill fraction, wood type and efficiency. -/
theorem C3_zero_duration_raises (v f e : ℚ) (w : WoodType) :
    get_furnace_power_curve v f w e 0 = none :=
  curve_zero_raises v f e w

/-! ### C4 -/

/-- C4: for positive area, height and resistances, `calculate_heat_loss`
returns 0 when `t_in - t_out ≤ 0`, otherwise exactly
`(4·sqrt(area)·height·Δt/R_wall + area·Δt/R_floor + area·Δt/R_ceiling)/1000`,
and the result is always nonnegative. -/
theorem C4_heat_loss_formula (area height wr fr cr t_in t_out : ℝ)
    (ha : 0 < area) (hh : 0 < height) (hw : 0 < wr) (hf : 0 < fr) (hc : 0 < cr) :
    (t_in - t_out ≤ 0 → calculate_heat_loss area height wr fr cr t_in t_out = 0) ∧
    (0 < t_in - t_out → calculate_heat_loss area height wr fr cr t_in t_out =
      (4 * Real.sqrt area * height * (t_in - t_out) / wr +
       area * (t_in - t_out) / fr + area * (t_in - t_out) / cr) / 1000) ∧
    0 ≤ calculate_heat_loss area height wr fr cr t_in t_out := by
  refine ⟨?_, ?_, ?_⟩
  · intro h
    simp only [calculate_heat_loss]
    rw [if_pos h]
  · intro h
    simp only [calculate_heat_loss]
    rw [if_neg (not_le.mpr h)]
    ring
  · simp only [calculate_heat_loss]
    split
    · exact le_rfl
    · next h =>
      have hd : (0:ℝ) ≤ t_in - t_out := le_of_lt (not_le.mp h)
      have hs : (0:ℝ) ≤ Real.sqrt area := Real.sqrt_nonneg area
      have h1 : (0:ℝ) ≤ 2 * (Real.sqrt area + Real.sqrt area) * height * (t_in - t_out) / wr :=
        div_nonneg (mul_nonneg (mul_nonneg (by linarith) (le_of_lt hh)) hd) (le_of_lt hw)
      have h2 : (0:ℝ) ≤ area * (t_in - t_out) / fr :=
        div_nonneg (mul_nonneg (le_of_lt ha) hd) (le_of_lt hf)
      have h3 : (0:ℝ) ≤ area * (t_in - t_out) / cr :=
        div_nonneg (mul_nonneg (le_of_lt ha) hd) (le_of_lt hc)
      exact div_nonneg (by linarith) (by norm_num)

/-- C4 witness: the spec's concrete scenario (area 100 m², height 2.5 m,
Δt = 42 K, floor R 2.5, ceiling R 3.5, wall R 1). -/
theorem C4_heat_loss_formula_witness :
    (0:ℝ) < 100 ∧ (0:ℝ) < 5/2 ∧ (0:ℝ) < 1 ∧ (0:ℝ) < 5/2 ∧ (0:ℝ) < 7/2 ∧
    (((22:ℝ) - (-20) ≤ 0 → calculate_heat_loss 100 (5/2) 1 (5/2) (7/2) 22 (-20) = 0) ∧
     (0 < (22:ℝ) - (-20) → calculate_heat_loss 100 (5/2) 1 (5/2) (7/2) 22 (-20) =
       (4 * Real.sqrt 100 * (5/2) * ((22:ℝ) - (-20)) / 1 +
        100 * ((22:ℝ) - (-20)) / (5/2) + 100 * ((22:ℝ) - (-20)) / (7/2)) / 1000) ∧
     0 ≤ calculate_heat_loss 100 (5/2) 1 (5/2) (7/2) 22 (-20)) :=
  ⟨by norm_num, by norm_num, by norm_num, by norm_num, by norm_num,
   C4_heat_loss_formula 100 (5/2) 1 (5/2) (7/2) 22 (-20) (by norm_num) (by norm_num)
     (by norm_num) (by norm_num) (by norm_num)⟩

/-- The three direct table lookups of the composite branch. -/
theorem materials_index_osb : materials_index ("OSB") = 13/100 := rfl

/-- Mineral-wool conductivity lookup. -/
theorem materials_index_wool : materials_index ("Минеральная вата") = 45/1000 := rfl

/-- Steel-cladding conductivity lookup. -/
theorem materials_index_steel : materials_index ("Профнастил (сталь)") = 58 := rfl

/-! ### C9 -/

/-- C9 counterexample: the composite option "Минеральная вата с обшивкой"
is a material name absent from the `MATERIALS` table, yet the function
does not fall back to brick's conductivity — it takes the layered branch,
so the claimed formula `0.13 + thickness/0.81 + 0.04` is wrong for it
(layered ≈ 1.3503 vs claimed ≈ 0.6638 at thickness 0.40 m, wool 0.05 m). -/
theorem C9_counterexample :
    calculate_wall_r_value ("Минеральная вата с обшивкой") (2/5) (1/20) ≠
      13/100 + (2/5) / (81/100) + 4/100 := by
  norm_num [calculate_wall_r_value, materials_index_osb, materials_index_wool,
    materials_index_steel, R_SI, R_SE]

/-- C9 amended: for every material name other than the composite option,
`calculate_wall_r_value` returns `0.13 + thickness/conductivity + 0.04`
without raising, unknown names falling back to brick's conductivity 0.81;
the composite option instead sums its three fixed layers; in all cases
(thicknesses ≥ 0) the result is ≥ 0.17. -/
theorem C9_wall_r_value (m : String) (t wt : ℚ) (ht : 0 ≤ t) (hwt : 0 ≤ wt) :
    (m ≠ "Минеральная вата с обшивкой" →
      calculate_wall_r_value m t wt = 13/100 + t / materials_get m (81/100) + 4/100) ∧
    (m = "Минеральная вата с обшивкой" →
      calculate_wall_r_value m t wt =
        13/100 + ((9/1000) / (13/100) + wt / (45/1000) + (5/10000) / 58) + 4/100) ∧
    17/100 ≤ calculate_wall_r_value m t wt := by
  have hlam := materials_get_pos m
  refine ⟨?_, ?_, ?_⟩
  · intro h
    simp only [calculate_wall_r_value, if_neg h]
    rw [R_SI, R_SE]
  · intro h
    simp only [calculate_wall_r_value, if_pos h]
    norm_num [materials_index_osb, materials_index_wool, materials_index_steel, R_SI, R_SE]
  · simp only [calculate_wall_r_value]
    split
    · have h1 : (0:ℚ) ≤ (9/1000) / materials_index ("OSB") := by
        rw [materials_index_osb]; norm_num
      have h2 : (0:ℚ) ≤ wt / materials_index ("Минеральная вата") := by
        apply div_nonneg hwt
        rw [materials_index_wool]; norm_num
      have h3 : (0:ℚ) ≤ (5/10000) / materials_index ("Профнастил (сталь)") := by
        rw [materials_index_steel]; norm_num
      rw [R_SI, R_SE]
      linarith
    · have h4 : (0:ℚ) ≤ t / materials_get m (81/100) := div_nonneg ht (le_of_lt hlam)
      rw [R_SI, R_SE]
      linarith

/-- C9 witness: brick, 40 cm wall. -/
theorem C9_wall_r_value_witness :
    (0:ℚ) ≤ 2/5 ∧ (0:ℚ) ≤ 1/20 ∧
    ((("Кирпич" : String) ≠ "Минеральная вата с обшивкой" →
      calculate_wall_r_value ("Кирпич") (2/5) (1/20) =
        13/100 + (2/5) / materials_get ("Кирпич") (81/100) + 4/100) ∧
     (("Кирпич" : String) = "Минеральная вата с обшивкой" →
      calculate_wall_r_value ("Кирпич") (2/5) (1/20) =
        13/100 + ((9/1000) / (13/100) + (1/20) / (45/1000) + (5/10000) / 58) + 4/100) ∧
     17/100 ≤ calculate_wall_r_value ("Кирпич") (2/5) (1/20)) :=
  ⟨by norm_num, by norm_num,
   C9_wall_r_value ("Кирпич") (2/5) (1/20) (by norm_num) (by norm_num)⟩

/-! ### C7 -/

/-- C7: for every positive burn duration, every sample of the returned
power list equals `max(0, 2·avg·(1 − t/duration))` at its sample time,
with the average the claimed `(fuel_MJ/3.6·efficiency)/duration`; for
nonnegative inputs the sample at t = 0 equals exactly `2·avg`. -/
theorem C7_curve_samples (v f e d : ℚ) (w : WoodType) (hd : 0 < d) :
    ∃ T P total, get_furnace_power_curve v f w e d = some (T, P, total) ∧
      avg_power_kw v f w e d = fuel_total_kwh v f w e / d ∧
      (∀ i (hT : i < T.length) (hP : i < P.length),
        P.get ⟨i, hP⟩ = max 0 (2 * avg_power_kw v f w e d * (1 - T.get ⟨i, hT⟩ / d))) ∧
      (0 ≤ v → 0 ≤ f → 0 ≤ e → P.head? = some (2 * avg_power_kw v f w e d)) := by
  refine ⟨time_points d, _, _, curve_char v f e d w (ne_of_gt hd), ?_, ?_, ?_⟩
  · rw [avg_power_kw, if_pos hd]
  · intro i hT hP
    simp only [List.get_eq_getElem, List.getElem_map]
    congr 1
    ring
  · intro hv hf he
    rw [List.head?_map, time_points_head d hd]
    have havg := avg_power_kw_nonneg v f e d w hv hf he
    rw [Option.map_some']
    have h0 : avg_power_kw v f w e d * 2 * (1 - 0 / d) = 2 * avg_power_kw v f w e d := by
      rw [zero_div, sub_zero, mul_one, mul_comm]
    rw [h0, max_eq_right (by linarith)]

/-- C7 witness: the spec's concrete scenario ("Муссон 600", fill 80 %,
conifer wood, efficiency 85 %, 8 h burn; avg ≈ 17.55 kW, peak ≈ 35.1 kW). -/
theorem C7_curve_samples_witness :
    (0:ℚ) < 8 ∧
    (∃ T P total, get_furnace_power_curve 125 (4/5) WoodType.hvoynye (17/20) 8 =
        some (T, P, total) ∧
      avg_power_kw 125 (4/5) WoodType.hvoynye (17/20) 8 =
        fuel_total_kwh 125 (4/5) WoodType.hvoynye (17/20) / 8 ∧
      (∀ i (hT : i < T.length) (hP : i < P.length),
        P.get ⟨i, hP⟩ = max 0 (2 * avg_power_kw 125 (4/5) WoodType.hvoynye (17/20) 8 *
          (1 - T.get ⟨i, hT⟩ / 8))) ∧
      (0 ≤ (125:ℚ) → 0 ≤ (4/5:ℚ) → 0 ≤ (17/20:ℚ) →
        P.head? = some (2 * avg_power_kw 125 (4/5) WoodType.hvoynye (17/20) 8))) :=
  ⟨by norm_num, C7_curve_samples 125 (4/5) (17/20) 8 WoodType.hvoynye (by norm_num)⟩

/-! ### Selection claims (C1, C2) -/

/-- Shared selection fact: a successful run that recommends a model
recommends a first-seen qualifying model of maximal average power, and
reports its average power as the best. -/
theorem runApp_selection (hl f e d : ℚ) (w : WoodType) (r : AppResult)
    (name : String) (h : runApp hl f w e d = some r)
    (hr : r.recommended_model = some name) :
    ∃ l₁ md l₂, r.models = l₁ ++ md :: l₂ ∧ md.model = name ∧
      hl * (12/10) ≤ md.avg_power ∧ 0 < md.avg_power ∧
      r.best_model_avg_power = md.avg_power ∧
      (∀ md' ∈ r.models, hl * (12/10) ≤ md'.avg_power →
        md'.avg_power ≤ md.avg_power) ∧
      (∀ md' ∈ l₁, hl * (12/10) ≤ md'.avg_power →
        md'.avg_power < md.avg_power) := by
  obtain ⟨hm, hrec, hbest, hcas, href⟩ := runApp_some hl f e d w r h
  rw [selectRecommended] at hrec hbest
  rcases selectFold_split (hl * (12/10)) r.models (none, 0) with hsp |
    ⟨l₁, md, l₂, heq, hres, hq, hlt, hpre⟩
  · rw [hsp] at hrec
    rw [hrec] at hr
    exact absurd hr (by simp)
  · have hname : md.model = name := by
      rw [hres] at hrec
      rw [hrec] at hr
      exact Option.some_inj.mp hr
    refine ⟨l₁, md, l₂, heq, hname, hq, hlt, ?_, ?_, hpre⟩
    · rw [hres] at hbest
      exact hbest
    · intro md' hmd' hq'
      have hmax := selectFold_max (hl * (12/10)) r.models (none, 0) md' hmd' hq'
      rw [hres] at hmax
      exact hmax

/-- C1: whenever the engine recommends a model, that model qualifies
(average power at or above the margin-adjusted load), its average power
is the maximum among all qualifying catalog models, it is the first-seen
model attaining that maximum (every earlier qualifying model is strictly
less powerful), and the reported best power is its average power. -/
theorem C1_recommend_most_powerful (hl f e d : ℚ) (w : WoodType) (r : AppResult)
    (name : String) (h : runApp hl f w e d = some r)
    (hr : r.recommended_model = some name) :
    ∃ l₁ md l₂, r.models = l₁ ++ md :: l₂ ∧ md.model = name ∧
      hl * (12/10) ≤ md.avg_power ∧
      r.best_model_avg_power = md.avg_power ∧
      (∀ md' ∈ r.models, hl * (12/10) ≤ md'.avg_power →
        md'.avg_power ≤ md.avg_power) ∧
      (∀ md' ∈ l₁, hl * (12/10) ≤ md'.avg_power →
        md'.avg_power < md.avg_power) := by
  obtain ⟨l₁, md, l₂, heq, hname, hq, hpos, hbest, hmax, hpre⟩ :=
    runApp_selection hl f e d w r name h hr
  exact ⟨l₁, md, l₂, heq, hname, hq, hbest, hmax, hpre⟩

/-- C2 amended: the recommended model is a qualifying model of maximal
(not minimal) average power among the qualifying catalog models. -/
theorem C2_amended_highest_qualifying (hl f e d : ℚ) (w : WoodType) (r : AppResult)
    (name : String) (h : runApp hl f w e d = some r)
    (hr : r.recommended_model = some name) :
    ∃ md ∈ r.models, md.model = name ∧ hl * (12/10) ≤ md.avg_power ∧
      ∀ md' ∈ r.models, hl * (12/10) ≤ md'.avg_power →
        md'.avg_power ≤ md.avg_power := by
  obtain ⟨l₁, md, l₂, heq, hname, hq, hpos, hbest, hmax, hpre⟩ :=
    runApp_selection hl f e d w r name h hr
  refine ⟨md, ?_, hname, hq, hmax⟩
  rw [heq]
  exact List.mem_append_right l₁ (List.mem_cons_self md l₂)

/-! ### Concrete evaluation support for witnesses -/

def sampleModels : List ModelData :=
  [⟨"Муссон 300", [0, 1/2], [9163/18, 0], 9163/36⟩,
   ⟨"Муссон 600", [0, 1/2], [14875/18, 0], 14875/36⟩,
   ⟨"Муссон 1000", [0, 1/2], [11900/9, 0], 5950/9⟩,
   ⟨"Муссон 1500", [0, 1/2], [37009/18, 0], 37009/36⟩,
   ⟨"Муссон 2000", [0, 1/2], [55573/18, 0], 55573/36⟩]

theorem sample_time_points : time_points (1/2) = [0, 1/2] := by
  have h : (1/2 : ℚ) = ((1:ℕ) : ℚ) / 2 := by norm_num
  rw [h, time_points_half_nat]
  norm_num [List.range_succ]

theorem sample_all_models :
    all_models_data 1 WoodType.hvoynye 1 (1/2) = some sampleModels := by
  rw [all_models_data, modelsData_eq 1 WoodType.hvoynye 1 (1/2) (by norm_num)]
  rw [MUSSON_MODELS, sampleModels]
  simp only [List.map_cons, List.map_nil, sample_time_points]
  norm_num [avg_power_kw, fuel_total_kwh, WoodType.density, WoodType.q_mj_kg, max_def]

theorem runApp_1000_eval :
    runApp 1000 1 WoodType.hvoynye 1 (1/2) =
      some ⟨sampleModels, some ("Муссон 2000"), 55573/36, none, 0⟩ := by
  have hsel : selectRecommended (1000 * (12/10)) sampleModels =
      (some ("Муссон 2000"), 55573/36) := by
    rw [selectRecommended, sampleModels]
    norm_num [List.foldl, selectStep]
  have hcas : cascadeOpt 1000 (1000 * (12/10)) (some ("Муссон 2000")) sampleModels = none := by
    rw [sampleModels]
    simp [cascadeOpt]
  have hfind : sampleModels.find? (fun item => item.model = "Муссон 2000") =
      some ⟨"Муссон 2000", [0, 1/2], [55573/18, 0], 55573/36⟩ := rfl
  have href : refuelFor (1000 * (12/10)) (some ("Муссон 2000")) sampleModels = 0 := by
    rw [refuelFor, hfind]
    norm_num [refuelLoop, List.zip, List.zipWith]
  rw [runApp, sample_all_models]
  simp only [hsel, hcas, href]

theorem runApp_100_eval :
    runApp 100 1 WoodType.hvoynye 1 (1/2) =
      some ⟨sampleModels, some ("Муссон 2000"), 55573/36, none, 0⟩ := by
  have hsel : selectRecommended (100 * (12/10)) sampleModels =
      (some ("Муссон 2000"), 55573/36) := by
    rw [selectRecommended, sampleModels]
    norm_num [List.foldl, selectStep]
  have hcas : cascadeOpt 100 (100 * (12/10)) (some ("Муссон 2000")) sampleModels = none := by
    rw [sampleModels]
    simp [cascadeOpt]
  have hfind : sampleModels.find? (fun item => item.model = "Муссон 2000") =
      some ⟨"Муссон 2000", [0, 1/2], [55573/18, 0], 55573/36⟩ := rfl
  have href : refuelFor (100 * (12/10)) (some ("Муссон 2000")) sampleModels = 0 := by
    rw [refuelFor, hfind]
    norm_num [refuelLoop, List.zip, List.zipWith]
  rw [runApp, sample_all_models]
  simp only [hsel, hcas, href]

theorem ceil_2000_case : (⌈(86400:ℚ) / 55573⌉ : ℤ) = 2 := by
  rw [Int.ceil_eq_iff] <;> norm_num

theorem runApp_2000_eval :
    runApp 2000 1 WoodType.hvoynye 1 (1/2) =
      some ⟨sampleModels, none, 0, some ((2:ℤ), "Муссон 2000"), 0⟩ := by
  have hsel : selectRecommended (2000 * (12/10)) sampleModels = (none, 0) := by
    rw [selectRecommended, sampleModels]
    norm_num [List.foldl, selectStep]
  have hmax : maxByAvgAux ⟨"Муссон 300", [0, 1/2], [9163/18, 0], 9163/36⟩
      [⟨"Муссон 600", [0, 1/2], [14875/18, 0], 14875/36⟩,
       ⟨"Муссон 1000", [0, 1/2], [11900/9, 0], 5950/9⟩,
       ⟨"Муссон 1500", [0, 1/2], [37009/18, 0], 37009/36⟩,
       ⟨"Муссон 2000", [0, 1/2], [55573/18, 0], 55573/36⟩] =
      ⟨"Муссон 2000", [0, 1/2], [55573/18, 0], 55573/36⟩ := by
    norm_num [maxByAvgAux]
  have hcas : cascadeOpt 2000 (2000 * (12/10)) none sampleModels =
      some ((2:ℤ), "Муссон 2000") := by
    rw [sampleModels, cascadeOpt]
    rw [if_pos (by norm_num : (none : Option String) = none ∧ (2000:ℚ) > 0)]
    rw [hmax]
    norm_num [ceil_2000_case]
  have href : refuelFor (2000 * (12/10)) none sampleModels = 0 := by
    rw [refuelFor]
  rw [runApp, sample_all_models]
  simp only [hsel, hcas, href]

/-- C1 witness: heat-loss 1000 kW (required 1200 kW), full fill, conifer
wood, perfect efficiency, half-hour burn — only "Муссон 2000" qualifies
and is recommended. -/
theorem C1_recommend_most_powerful_witness :
    ∃ r, runApp 1000 1 WoodType.hvoynye 1 (1/2) = some r ∧
      r.recommended_model = some ("Муссон 2000") ∧
      ∃ l₁ md l₂, r.models = l₁ ++ md :: l₂ ∧ md.model = "Муссон 2000" ∧
        1000 * (12/10) ≤ md.avg_power ∧
        r.best_model_avg_power = md.avg_power ∧
        (∀ md' ∈ r.models, 1000 * (12/10) ≤ md'.avg_power →
          md'.avg_power ≤ md.avg_power) ∧
        (∀ md' ∈ l₁, 1000 * (12/10) ≤ md'.avg_power →
          md'.avg_power < md.avg_power) :=
  ⟨_, runApp_1000_eval, rfl,
   C1_recommend_most_powerful 1000 1 1 (1/2) WoodType.hvoynye _ ("Муссон 2000")
     runApp_1000_eval rfl⟩

/-- C2 counterexample: at heat-loss 100 kW (required 120 kW) with full
fill, conifer wood, perfect efficiency and a half-hour burn, all five
models qualify; the engine recommends "Муссон 2000" (avg ≈ 1543.7 kW),
although the qualifying "Муссон 300" has strictly smaller average power
(≈ 254.5 kW) — the engine does not pick the lowest-power sufficient
model. -/
theorem C2_counterexample :
    ∃ r, runApp 100 1 WoodType.hvoynye 1 (1/2) = some r ∧
      r.recommended_model = some ("Муссон 2000") ∧
      r.best_model_avg_power = 55573/36 ∧
      ∃ md ∈ r.models, md.model = "Муссон 300" ∧
        100 * (12/10) ≤ md.avg_power ∧ md.avg_power < 55573/36 := by
  refine ⟨_, runApp_100_eval, rfl, rfl,
    ⟨⟨"Муссон 300", [0, 1/2], [9163/18, 0], 9163/36⟩, ?_, rfl, by norm_num, by norm_num⟩⟩
  show _ ∈ sampleModels
  rw [sampleModels]
  exact List.mem_cons_self _ _

/-- C2 amended witness: same scenario as the C1 witness. -/
theorem C2_amended_highest_qualifying_witness :
    ∃ r, runApp 1000 1 WoodType.hvoynye 1 (1/2) = some r ∧
      r.recommended_model = some ("Муссон 2000") ∧
      ∃ md ∈ r.models, md.model = "Муссон 2000" ∧ 1000 * (12/10) ≤ md.avg_power ∧
        ∀ md' ∈ r.models, 1000 * (12/10) ≤ md'.avg_power →
          md'.avg_power ≤ md.avg_power :=
  ⟨_, runApp_1000_eval, rfl,
   C2_amended_highest_qualifying 1000 1 1 (1/2) WoodType.hvoynye _ ("Муссон 2000")
     runApp_1000_eval rfl⟩

/-! ### C5 -/

/-- C5: a cascade is offered only when nothing was recommended (and then
no model qualifies at all), the heat loss is positive and the most
powerful model's average power is positive; the offered count is exactly
`ceil(required / max_avg)` for the globally most powerful model, and it
satisfies `count ≥ 2` and `count · max_avg ≥ required`. -/
theorem C5_cascade_spec (hl f e d : ℚ) (w : WoodType) (r : AppResult)
    (n : ℤ) (name : String) (h : runApp hl f w e d = some r)
    (hc : r.cascade_option = some (n, name)) :
    r.recommended_model = none ∧ 0 < hl ∧
    (∀ md ∈ r.models, md.avg_power < hl * (12/10)) ∧
    ∃ mp ∈ r.models, mp.model = name ∧ 0 < mp.avg_power ∧
      (∀ md ∈ r.models, md.avg_power ≤ mp.avg_power) ∧
      n = ⌈hl * (12/10) / mp.avg_power⌉ ∧ 2 ≤ n ∧
      hl * (12/10) ≤ (n : ℚ) * mp.avg_power := by
  obtain ⟨hm, hrec, hbest, hcas, href⟩ := runApp_some hl f e d w r h
  rw [hc] at hcas
  obtain ⟨m, rest, hM⟩ : ∃ m rest, r.models = m :: rest := by
    cases hML : r.models with
    | nil =>
      rw [hML, cascadeOpt] at hcas
      exact absurd hcas.symm (by simp)
    | cons m rest => exact ⟨m, rest, rfl⟩
  rw [hM, cascadeOpt] at hcas
  by_cases h1 : r.recommended_model = none ∧ hl > 0
  case neg =>
    rw [if_neg h1] at hcas
    exact absurd hcas.symm (by simp)
  rw [if_pos h1] at hcas
  simp only at hcas
  by_cases h2 : (maxByAvgAux m rest).avg_power > 0
  case neg =>
    rw [if_neg h2] at hcas
    exact absurd hcas.symm (by simp)
  rw [if_pos h2] at hcas
  by_cases h3 : (1 : ℤ) < ⌈hl * (12/10) / (maxByAvgAux m rest).avg_power⌉
  case neg =>
    rw [if_neg h3] at hcas
    exact absurd hcas.symm (by simp)
  rw [if_pos h3] at hcas
  have hpair : (n, name) =
      (⌈hl * (12/10) / (maxByAvgAux m rest).avg_power⌉, (maxByAvgAux m rest).model) :=
    Option.some_inj.mp hcas
  have hn : n = ⌈hl * (12/10) / (maxByAvgAux m rest).avg_power⌉ := congrArg Prod.fst hpair
  have hname : name = (maxByAvgAux m rest).model := congrArg Prod.snd hpair
  have hmem : maxByAvgAux m rest ∈ r.models := by
    rw [hM]
    exact maxByAvgAux_mem m rest
  have hnoqual : ∀ md ∈ r.models, md.avg_power < hl * (12/10) := by
    intro md hmd
    by_contra hge
    push_neg at hge
    rcases selectFold_split (hl * (12/10)) r.models (none, 0) with hsp |
      ⟨l₁, md2, l₂, heq2, hres2, hq2, hlt2, hpre2⟩
    · have hb := selectFold_max (hl * (12/10)) r.models (none, 0) md hmd hge
      rw [hsp] at hb
      have hpos : (0:ℚ) < hl * (12/10) := by
        have := h1.2
        linarith
      simp only at hb
      linarith
    · rw [selectRecommended, hres2] at hrec
      rw [hrec] at h1
      exact absurd h1.1 (by simp)
  refine ⟨h1.1, h1.2, hnoqual, maxByAvgAux m rest, hmem, hname.symm, h2, ?_, hn, ?_, ?_⟩
  · intro md hmd
    rw [hM] at hmd
    rcases List.mem_cons.mp hmd with hh | hh
    · subst hh
      exact maxByAvgAux_le md rest
    · exact maxByAvgAux_max m rest md hh
  · omega
  · have hle : hl * (12/10) / (maxByAvgAux m rest).avg_power ≤ (n : ℚ) := by
      rw [hn]
      exact_mod_cast Int.le_ceil (hl * (12/10) / (maxByAvgAux m rest).avg_power)
    calc hl * (12/10)
        = hl * (12/10) / (maxByAvgAux m rest).avg_power *
            (maxByAvgAux m rest).avg_power :=
          (div_mul_cancel₀ _ (ne_of_gt h2)).symm
      _ ≤ (n : ℚ) * (maxByAvgAux m rest).avg_power :=
          mul_le_mul_of_nonneg_right hle (le_of_lt h2)

/-- C5 witness: heat-loss 2000 kW (required 2400 kW) — no model
qualifies and a two-unit cascade of "Муссон 2000" is offered. -/
theorem C5_cascade_spec_witness :
    ∃ r, runApp 2000 1 WoodType.hvoynye 1 (1/2) = some r ∧
      r.cascade_option = some ((2:ℤ), "Муссон 2000") ∧
      (r.recommended_model = none ∧ 0 < (2000:ℚ) ∧
       (∀ md ∈ r.models, md.avg_power < 2000 * (12/10)) ∧
       ∃ mp ∈ r.models, mp.model = "Муссон 2000" ∧ 0 < mp.avg_power ∧
         (∀ md ∈ r.models, md.avg_power ≤ mp.avg_power) ∧
         (2:ℤ) = ⌈(2000:ℚ) * (12/10) / mp.avg_power⌉ ∧ 2 ≤ (2:ℤ) ∧
         (2000:ℚ) * (12/10) ≤ ((2:ℤ) : ℚ) * mp.avg_power) :=
  ⟨_, runApp_2000_eval, rfl,
   C5_cascade_spec 2000 1 1 (1/2) WoodType.hvoynye _ 2 ("Муссон 2000")
     runApp_2000_eval rfl⟩

/-! ### Model-list characterization -/

/-- At zero burn duration the model loop raises on its first entry. -/
theorem all_models_zero (f e : ℚ) (w : WoodType) :
    all_models_data f w e 0 = none := by
  rw [all_models_data, MUSSON_MODELS]
  rw [modelsData, curve_zero_raises]

/-- Every produced model datum comes from a catalog entry, with the grid
times, the clamped linear-decay powers and the recomputed average. -/
theorem models_mem_char (f e d : ℚ) (w : WoodType) (hd : d ≠ 0) (L : List ModelData)
    (hL : all_models_data f w e d = some L) (md : ModelData) (hmd : md ∈ L) :
    ∃ p ∈ MUSSON_MODELS, md =
      ⟨p.1, time_points d,
       (time_points d).map
         (fun t => max 0 (avg_power_kw p.2.volume_l f w e d * 2 * (1 - t / d))),
       avg_power_kw p.2.volume_l f w e d⟩ := by
  rw [all_models_data, modelsData_eq f w e d hd] at hL
  have hLeq := Option.some_inj.mp hL
  rw [← hLeq] at hmd
  obtain ⟨p, hp, hpe⟩ := List.mem_map.mp hmd
  exact ⟨p, hp, hpe.symm⟩

/-- The produced model names are the catalog names, in order. -/
theorem models_names (f e d : ℚ) (w : WoodType) (hd : d ≠ 0) (L : List ModelData)
    (hL : all_models_data f w e d = some L) :
    L.map (fun md => md.model) = MUSSON_MODELS.map Prod.fst := by
  rw [all_models_data, modelsData_eq f w e d hd] at hL
  rw [← Option.some_inj.mp hL, List.map_map]
  rfl

/-- The five catalog names are pairwise distinct. -/
theorem musson_names_nodup : (MUSSON_MODELS.map Prod.fst).Nodup := by
  rw [MUSSON_MODELS]
  decide

/-! ### C6 -/

/-- C6: on every run that recommends a model, the computed refuel time
is the largest sample time `t` of the recommended model's power curve
such that the power at every sample up to and including `t` is at least
the margin-adjusted load (the walk stops at the first sample below the
threshold). -/
theorem C6_refuel_time (hl f e d : ℚ) (w : WoodType) (r : AppResult) (name : String)
    (h : runApp hl f w e d = some r) (hr : r.recommended_model = some name) :
    ∃ md ∈ r.models, md.model = name ∧
      ∃ i, ∃ hT : i < md.time.length, ∃ hP : i < md.power.length,
        r.refuel_time = md.time.get ⟨i, hT⟩ ∧
        (∀ j (hj : j < md.power.length), j ≤ i →
          hl * (12/10) ≤ md.power.get ⟨j, hj⟩) ∧
        (∀ k (hk : k < md.time.length),
          (∀ j (hj : j < md.power.length), j ≤ k →
            hl * (12/10) ≤ md.power.get ⟨j, hj⟩) →
          md.time.get ⟨k, hk⟩ ≤ md.time.get ⟨i, hT⟩) := by
  obtain ⟨hm, hrec, hbest, hcas, href⟩ := runApp_some hl f e d w r h
  obtain ⟨l₁, mdsel, l₂, heqsel, hnamesel, hq, hpos, hbestv, hmax, hpre⟩ :=
    runApp_selection hl f e d w r name h hr
  have hmemsel : mdsel ∈ r.models := by
    rw [heqsel]
    exact List.mem_append_right l₁ (List.mem_cons_self mdsel l₂)
  have hd : d ≠ 0 := by
    intro h0
    subst h0
    rw [all_models_zero] at hm
    exact absurd hm (by simp)
  obtain ⟨p, hp, hchar⟩ := models_mem_char f e d w hd r.models hm mdsel hmemsel
  subst hchar
  set v := p.2.volume_l with hv
  set A := avg_power_kw v f w e d with hA
  set T := time_points d with hTdef
  set pw : ℚ → ℚ := fun t => max 0 (A * 2 * (1 - t / d)) with hpwdef
  set P : List ℚ := T.map pw with hPdef
  set mdl : ModelData := ⟨p.1, T, P, A⟩ with hmdl
  have hq2 : hl * (12/10) ≤ A := hq
  have hpos2 : 0 < A := hpos
  have hdpos : 0 < d := by
    by_contra hnd
    push_neg at hnd
    rw [hA, avg_power_kw, if_neg (not_lt.mpr hnd)] at hpos2
    exact absurd hpos2 (by norm_num)
  -- find? locates the model with this name, and names are unique
  have hfindex : ∃ x ∈ r.models, (fun item => decide (item.model = name)) x = true :=
    ⟨mdl, hmemsel, by simpa using hnamesel⟩
  have hfsome : (r.models.find? (fun item => item.model = name)).isSome := by
    rw [List.find?_isSome]
    exact hfindex
  obtain ⟨mdf, hfind⟩ := Option.isSome_iff_exists.mp hfsome
  have hpredf : mdf.model = name := by
    have := List.find?_some hfind
    simpa using this
  have hmemf : mdf ∈ r.models := List.mem_of_find?_eq_some hfind
  have hnodup : (r.models.map (fun md => md.model)).Nodup := by
    rw [models_names f e d w hd r.models hm]
    exact musson_names_nodup
  have hfeq : mdf = mdl :=
    List.inj_on_of_nodup_map hnodup hmemf hmemsel (by rw [hpredf, hnamesel])
  rw [hfeq] at hfind
  -- the refuel walk runs on the selected model's curve
  have hrefv : r.refuel_time = refuelLoop (hl * (12/10)) 0 (T.zip P) := by
    rw [href, hr, refuelFor.eq_def]
    simp only [hfind]
  -- basic facts about the sampled lists
  have hlenP : P.length = T.length := by rw [hPdef, List.length_map]
  have hlenzip : (T.zip P).length = T.length := by
    rw [List.length_zip, hlenP, min_self]
  have hT0 : 0 < T.length := by
    have hh := time_points_head d hdpos
    rw [← hTdef] at hh
    cases hE : T with
    | nil => rw [hE] at hh; exact absurd hh (by simp)
    | cons a tl => simp
  have hTj : ∀ j (hj : j < T.length), T.get ⟨j, hj⟩ = (j : ℚ) * (1/2) := by
    intro j hj
    exact time_points_getElem d j hj
  have hPj : ∀ j (hj : j < T.length),
      P.get ⟨j, by rw [hlenP]; exact hj⟩ = pw (T.get ⟨j, hj⟩) := by
    intro j hj
    simp only [hPdef, List.get_eq_getElem, List.getElem_map]
  have hzipj : ∀ j (hj : j < T.length),
      (T.zip P).get ⟨j, by rw [hlenzip]; exact hj⟩ =
        (T.get ⟨j, hj⟩, P.get ⟨j, by rw [hlenP]; exact hj⟩) := by
    intro j hj
    simp only [List.get_eq_getElem, List.getElem_zip]
  have hP0 : hl * (12/10) ≤ P.get ⟨0, by rw [hlenP]; exact hT0⟩ := by
    rw [hPj 0 hT0, hTj 0 hT0]
    have harg : pw ((0:ℕ) * (1/2)) = max 0 (2 * A) := by
      rw [hpwdef]
      norm_num [mul_comm]
    rw [harg]
    have h2a : A ≤ 2 * A := by linarith
    exact le_trans (le_trans hq2 h2a) (le_max_right 0 _)
  -- split the walk
  obtain ⟨g₁, g₂, hsplit, hgood, hbad, hval⟩ :=
    refuelLoop_split (hl * (12/10)) 0 (T.zip P)
  have hlen_append : (T.zip P).length = g₁.length + g₂.length := by
    rw [hsplit, List.length_append]
  have hzlen : 0 < (T.zip P).length := by rw [hlenzip]; exact hT0
  have hhead : (T.zip P).head? = some ((T.zip P).get ⟨0, hzlen⟩) := by
    rw [List.head?_eq_getElem?, List.get_eq_getElem, List.getElem?_eq_getElem hzlen]
  have hg₁pos : 0 < g₁.length := by
    by_contra hzero
    push_neg at hzero
    have hnil : g₁ = [] := List.length_eq_zero.mp (by omega)
    rw [hnil, List.nil_append] at hsplit
    have hmemh : (T.zip P).get ⟨0, hzlen⟩ ∈ g₂.head? := by
      rw [← hsplit, Option.mem_def]
      exact hhead
    have hb2 := hbad _ hmemh
    rw [hzipj 0 hT0] at hb2
    dsimp only at hb2
    exact absurd hP0 (by linarith)
  have hlenTn : T.length = g₁.length + g₂.length := by
    rw [← hlenzip]
    exact hlen_append
  have hi : g₁.length - 1 < T.length := by omega
  have hiP : g₁.length - 1 < P.length := by omega
  have hig : g₁.length - 1 < g₁.length := by omega
  -- the generic index bridge: positions below `g₁.length` live in `g₁`
  have hzip_in_g₁ : ∀ j (hj : j < g₁.length),
      (T.zip P).get ⟨j, by omega⟩ = g₁.get ⟨j, hj⟩ := by
    intro j hj
    have hjz : j < (T.zip P).length := by omega
    simp only [List.get_eq_getElem]
    rw [List.getElem_of_eq hsplit hjz]
    exact List.getElem_append_left hj
  have hmem_g₁ : ∀ j (hj : j < g₁.length),
      (T.zip P).get ⟨j, by omega⟩ ∈ g₁ := by
    intro j hj
    rw [hzip_in_g₁ j hj]
    exact List.get_mem g₁ j hj
  -- value of the walk: the last time of the good prefix
  have hlast : (g₁.map Prod.fst).getLast? = some (T.get ⟨g₁.length - 1, hi⟩) := by
    have hmaplen : (g₁.map Prod.fst).length = g₁.length := List.length_map g₁ Prod.fst
    have hmb : g₁.length - 1 < (g₁.map Prod.fst).length := by omega
    rw [List.getLast?_eq_getElem?, hmaplen, List.getElem?_eq_getElem hmb]
    congr 1
    simp only [List.getElem_map]
    have h1 := hzip_in_g₁ (g₁.length - 1) hig
    have h2 := hzipj (g₁.length - 1) hi
    simp only [List.get_eq_getElem] at h1 h2
    rw [← h1, h2]
    rfl
  have hrefval : r.refuel_time = T.get ⟨g₁.length - 1, hi⟩ := by
    rw [hrefv, hval, hlast]
    rfl
  -- the good prefix bound
  have hgoodP : ∀ j (hj : j < P.length), j ≤ g₁.length - 1 →
      hl * (12/10) ≤ P.get ⟨j, hj⟩ := by
    intro j hj hji
    have hjg : j < g₁.length := by omega
    have hjT : j < T.length := by omega
    have hmem := hmem_g₁ j hjg
    have hgj := hgood _ hmem
    rw [hzipj j hjT] at hgj
    dsimp only at hgj
    exact hgj
  -- maximality: any index whose whole prefix qualifies is at most i
  have hmaxk : ∀ k (hk : k < T.length),
      (∀ j (hj : j < P.length), j ≤ k → hl * (12/10) ≤ P.get ⟨j, hj⟩) →
      k ≤ g₁.length - 1 := by
    intro k hk hkgood
    by_contra hgt
    push_neg at hgt
    have hkge : g₁.length ≤ k := by omega
    have hg₂pos : 0 < g₂.length := by omega
    have hn₁T : g₁.length < T.length := by omega
    have hn₁P : g₁.length < P.length := by omega
    have hheadg₂ : g₂.head? = some (g₂.get ⟨0, hg₂pos⟩) := by
      rw [List.head?_eq_getElem?, List.get_eq_getElem, List.getElem?_eq_getElem hg₂pos]
    have hb2 := hbad _ (Option.mem_def.mpr hheadg₂)
    have hbridge : g₂.get ⟨0, hg₂pos⟩ = (T.zip P).get ⟨g₁.length, by omega⟩ := by
      have hjz : g₁.length < (T.zip P).length := by omega
      simp only [List.get_eq_getElem]
      rw [List.getElem_of_eq hsplit hjz]
      rw [List.getElem_append_right (le_refl g₁.length)]
      congr 1
      omega
    rw [hbridge, hzipj g₁.length hn₁T] at hb2
    dsimp only at hb2
    have := hkgood g₁.length hn₁P hkge
    linarith
  -- assemble
  refine ⟨mdl, hmemsel, hnamesel, g₁.length - 1, hi, hiP, ?_, ?_, ?_⟩
  · exact hrefval
  · exact hgoodP
  · intro k hk hkgood
    have hki := hmaxk k hk hkgood
    exact time_points_mono d k (g₁.length - 1) hk hi hki


/-- C6 witness: same scenario as the C1 witness (refuel time 0: the
second sample is already below the 1200 kW requirement). -/
theorem C6_refuel_time_witness :
    ∃ r, runApp 1000 1 WoodType.hvoynye 1 (1/2) = some r ∧
      r.recommended_model = some ("Муссон 2000") ∧
      ∃ md ∈ r.models, md.model = "Муссон 2000" ∧
        ∃ i, ∃ hT : i < md.time.length, ∃ hP : i < md.power.length,
          r.refuel_time = md.time.get ⟨i, hT⟩ ∧
          (∀ j (hj : j < md.power.length), j ≤ i →
            1000 * (12/10) ≤ md.power.get ⟨j, hj⟩) ∧
          (∀ k (hk : k < md.time.length),
            (∀ j (hj : j < md.power.length), j ≤ k →
              1000 * (12/10) ≤ md.power.get ⟨j, hj⟩) →
            md.time.get ⟨k, hk⟩ ≤ md.time.get ⟨i, hT⟩) :=
  ⟨_, runApp_1000_eval, rfl,
   C6_refuel_time 1000 1 1 (1/2) WoodType.hvoynye _ ("Муссон 2000")
     runApp_1000_eval rfl⟩

/-! ### Trapezoid machinery (spec-side, for C8) -/

/-- Arithmetic time grid with step 0.5 starting at `t0`, `n` steps. -/
def affineTimes (t0 : ℚ) : ℕ → List ℚ
  | 0 => [t0]
  | n+1 => t0 :: affineTimes (t0 + 1/2) n

/-- `affineTimes` always starts with its start point. -/
theorem affineTimes_cons (t0 : ℚ) (n : ℕ) : ∃ tl, affineTimes t0 n = t0 :: tl := by
  cases n with
  | zero => exact ⟨[], rfl⟩
  | succ m => exact ⟨affineTimes (t0 + 1/2) m, rfl⟩

/-- The trapezoid rule is exact for affine integrands on the 0.5-grid. -/
theorem trap_affine (a b : ℚ) : ∀ (n : ℕ) (t0 : ℚ),
    trapezoidSum (affineTimes t0 n) ((affineTimes t0 n).map (fun t => a + b * t)) =
      (2*a + b*(2*t0 + (n:ℚ)*(1/2)))/2 * ((n:ℚ)*(1/2)) := by
  intro n
  induction n with
  | zero =>
    intro t0
    simp [affineTimes, trapezoidSum]
  | succ m ih =>
    intro t0
    obtain ⟨tl, htl⟩ := affineTimes_cons (t0 + 1/2) m
    have e1 : affineTimes t0 (m+1) = t0 :: (t0 + 1/2) :: tl := by
      rw [affineTimes, htl]
    have e2 : List.map (fun t => a + b * t) (affineTimes t0 (m+1)) =
        (a + b * t0) :: (a + b * (t0 + 1/2)) :: List.map (fun t => a + b * t) tl := by
      rw [e1]
      rfl
    rw [e2, e1]
    have e3 : trapezoidSum (t0 :: (t0 + 1/2) :: tl)
        ((a + b * t0) :: (a + b * (t0 + 1/2)) :: List.map (fun t => a + b * t) tl) =
        ((a + b * t0) + (a + b * (t0 + 1/2))) / 2 * ((t0 + 1/2) - t0) +
          trapezoidSum ((t0 + 1/2) :: tl)
            ((a + b * (t0 + 1/2)) :: List.map (fun t => a + b * t) tl) := rfl
    rw [e3]
    have e5 : (t0 + 1/2) :: tl = affineTimes (t0 + 1/2) m := htl.symm
    have e4 : (a + b * (t0 + 1/2)) :: List.map (fun t => a + b * t) tl =
        List.map (fun t => a + b * t) (affineTimes (t0 + 1/2) m) := by
      rw [htl]
      rfl
    rw [e5, e4, ih (t0 + 1/2)]
    push_cast
    ring

/-- The arithmetic grid in closed form. -/
theorem affineTimes_eq (n : ℕ) : ∀ t0,
    affineTimes t0 n = (List.range (n + 1)).map (fun (i : ℕ) => t0 + (i : ℚ) * (1/2)) := by
  induction n with
  | zero =>
    intro t0
    have h1 : List.range 1 = [0] := rfl
    rw [affineTimes, h1]
    simp
  | succ m ih =>
    intro t0
    rw [affineTimes, ih (t0 + 1/2)]
    conv_rhs => rw [List.range_succ_eq_map, List.map_cons, List.map_map]
    congr 1
    · norm_num
    · apply List.map_congr_left
      intro i hi
      simp only [Function.comp_apply]
      push_cast
      ring

/-- The program's grid for duration `n/2` is the arithmetic grid from 0. -/
theorem time_points_eq_affine (n : ℕ) : time_points ((n:ℚ)/2) = affineTimes 0 n := by
  rw [time_points_half_nat, affineTimes_eq]
  apply List.map_congr_left
  intro i hi
  norm_num

/-! ### C8 -/

/-- C8 counterexample: for burn duration 0.75 h (a positive duration
that is not a multiple of the 0.5 h step) the sample times stop at 0.5 —
the duration itself is not sampled — and the trapezoidal integral of the
samples (10115/81) differs from `avg_power × duration` (10115/72). -/
theorem C8_counterexample :
    ∃ T P total,
      get_furnace_power_curve 125 (4/5) WoodType.hvoynye (17/20) (3/4) =
        some (T, P, total) ∧
      T.getLast? ≠ some (3/4) ∧
      trapezoidSum T P ≠
        avg_power_kw 125 (4/5) WoodType.hvoynye (17/20) (3/4) * (3/4) := by
  have htp : time_points (3/4) = [0, 1/2] := by
    have h1 : pyInt ((3/4 : ℚ) * 2) = 1 := by
      rw [pyInt, if_pos (by norm_num)]
      rw [show ((3/4 : ℚ) * 2) = 3/2 by norm_num]
      rw [Int.floor_eq_iff]
      constructor
      · norm_num
      · norm_num
    rw [time_points, h1]
    have h2 : ((1 : ℤ) + 1).toNat = 2 := rfl
    rw [h2]
    have h3 : List.range 2 = [0, 1] := rfl
    rw [h3]
    norm_num
  have havg : avg_power_kw 125 (4/5) WoodType.hvoynye (17/20) (3/4) = 10115/54 := by
    rw [avg_power_kw, if_pos (by norm_num), fuel_total_kwh]
    norm_num [WoodType.density, WoodType.q_mj_kg]
  refine ⟨_, _, _, curve_char 125 (4/5) (17/20) (3/4) WoodType.hvoynye (by norm_num),
    ?_, ?_⟩
  · rw [htp]
    have h4 : ([0, 1/2] : List ℚ).getLast? = some (1/2) := rfl
    rw [h4]
    norm_num
  · rw [htp, havg]
    simp only [List.map_cons, List.map_nil]
    have ht : ∀ x y : ℚ, trapezoidSum [0, 1/2] [x, y] = (x + y)/2 * (1/2 - 0) + 0 :=
      fun x y => rfl
    rw [ht]
    norm_num [max_def]

/-- C8 amended: for every burn duration that is a positive multiple of
0.5 h (`n/2` with `n ≥ 1`; the app's durations 2–24 h are all such), the
sample times are exactly 0, 0.5, …, duration inclusive, and — for
nonnegative volume, fill and efficiency — the trapezoidal integral of
the sampled power equals `avg_power × duration` exactly. -/
theorem C8_amended_trapezoid (v f e : ℚ) (w : WoodType) (n : ℕ) (hn : 1 ≤ n)
    (hv : 0 ≤ v) (hf : 0 ≤ f) (he : 0 ≤ e) :
    ∃ P total,
      get_furnace_power_curve v f w e ((n:ℚ)/2) =
        some (time_points ((n:ℚ)/2), P, total) ∧
      time_points ((n:ℚ)/2) =
        (List.range (n+1)).map (fun (i : ℕ) => (i:ℚ) * (1/2)) ∧
      (time_points ((n:ℚ)/2)).getLast? = some ((n:ℚ)/2) ∧
      trapezoidSum (time_points ((n:ℚ)/2)) P =
        avg_power_kw v f w e ((n:ℚ)/2) * ((n:ℚ)/2) := by
  have hnq : (1:ℚ) ≤ (n:ℚ) := by exact_mod_cast hn
  have hd0 : (0:ℚ) < (n:ℚ)/2 := by linarith
  have hdne : ((n:ℚ)/2) ≠ 0 := ne_of_gt hd0
  set d := (n:ℚ)/2 with hd
  set A := avg_power_kw v f w e d with hA
  have hA0 : 0 ≤ A := avg_power_kw_nonneg v f e d w hv hf he
  refine ⟨_, _, curve_char v f e d w hdne, time_points_half_nat n,
    time_points_half_nat_getLast n, ?_⟩
  have hstep1 : (time_points d).map (fun t => max 0 (A * 2 * (1 - t / d))) =
      (time_points d).map (fun t => (A * 2) + (-(A * 2)/d) * t) := by
    apply List.map_congr_left
    intro t ht
    rw [hd, time_points_half_nat] at ht
    obtain ⟨i, hi, rfl⟩ := List.mem_map.mp ht
    have hin : i ≤ n := by
      have := List.mem_range.mp hi
      omega
    have htle : (i:ℚ) * (1/2) ≤ d := by
      rw [hd]
      have hic : (i:ℚ) ≤ (n:ℚ) := by exact_mod_cast hin
      linarith
    have harg : 0 ≤ A * 2 * (1 - (i:ℚ) * (1/2) / d) := by
      apply mul_nonneg (by linarith)
      have hdiv : (i:ℚ) * (1/2) / d ≤ 1 := (div_le_one hd0).mpr htle
      linarith
    rw [max_eq_right harg]
    field_simp
    ring
  rw [hstep1]
  rw [hd, time_points_eq_affine]
  rw [trap_affine (A*2) (-(A*2)/((n:ℚ)/2)) n 0]
  have hne : (n:ℚ) ≠ 0 := by linarith
  field_simp
  ring

/-- C8 amended witness: "Муссон 600" at fill 80 %, conifer, efficiency
85 %, duration 8 h (= 16 half-hours). -/
theorem C8_amended_trapezoid_witness :
    1 ≤ 16 ∧ (0:ℚ) ≤ 125 ∧ (0:ℚ) ≤ 4/5 ∧ (0:ℚ) ≤ 17/20 ∧
    (∃ P total,
      get_furnace_power_curve 125 (4/5) WoodType.hvoynye (17/20) (((16:ℕ):ℚ)/2) =
        some (time_points (((16:ℕ):ℚ)/2), P, total) ∧
      time_points (((16:ℕ):ℚ)/2) =
        (List.range (16+1)).map (fun (i : ℕ) => (i:ℚ) * (1/2)) ∧
      (time_points (((16:ℕ):ℚ)/2)).getLast? = some (((16:ℕ):ℚ)/2) ∧
      trapezoidSum (time_points (((16:ℕ):ℚ)/2)) P =
        avg_power_kw 125 (4/5) WoodType.hvoynye (17/20) (((16:ℕ):ℚ)/2) *
          (((16:ℕ):ℚ)/2)) :=
  ⟨by norm_num, by norm_num, by norm_num, by norm_num,
   C8_amended_trapezoid 125 (4/5) (17/20) WoodType.hvoynye 16 (by norm_num)
     (by norm_num) (by norm_num) (by norm_num)⟩

/-! ### C10 -/

/-- C10: with `t_in ≤ t_out` the heat loss is exactly 0 (hence the
required load is 0), and the engine — run at heat loss 0 with positive
fill and efficiency and an integer burn duration `n ≥ 1` hours — still
recommends a model, namely the catalog model with the highest average
power ("Муссон 2000"), offers no cascade, and computes a refuel interval
equal to the full burn duration. -/
theorem C10_zero_load (area height wr fr cr t_in t_out : ℝ) (f e : ℚ) (w : WoodType)
    (n : ℕ) (ht : t_in ≤ t_out) (hf : 0 < f) (he : 0 < e) (hn : 1 ≤ n) :
    calculate_heat_loss area height wr fr cr t_in t_out = 0 ∧
    ∃ r, runApp 0 f w e (n:ℚ) = some r ∧
      r.recommended_model = some ("Муссон 2000") ∧
      (∀ md ∈ r.models, md.avg_power ≤ r.best_model_avg_power) ∧
      r.cascade_option = none ∧
      r.refuel_time = (n:ℚ) := by
  constructor
  · simp only [calculate_heat_loss]
    rw [if_pos (by linarith : t_in - t_out ≤ 0)]
  set d := (n:ℚ) with hdd
  have hnq : (1:ℚ) ≤ (n:ℚ) := by exact_mod_cast hn
  have hd0 : 0 < d := by rw [hdd]; linarith
  have hd : d ≠ 0 := ne_of_gt hd0
  -- the five average powers, ordered
  have h77 : 0 < avg_power_kw 77 f w e d := avg_power_kw_pos _ _ _ _ _ (by norm_num) hf he hd0
  have h12 : avg_power_kw 77 f w e d < avg_power_kw 125 f w e d :=
    avg_power_kw_mono _ _ _ _ _ _ (by norm_num) (by norm_num) hf he hd0
  have h23 : avg_power_kw 125 f w e d < avg_power_kw 200 f w e d :=
    avg_power_kw_mono _ _ _ _ _ _ (by norm_num) (by norm_num) hf he hd0
  have h34 : avg_power_kw 200 f w e d < avg_power_kw 311 f w e d :=
    avg_power_kw_mono _ _ _ _ _ _ (by norm_num) (by norm_num) hf he hd0
  have h45 : avg_power_kw 311 f w e d < avg_power_kw 467 f w e d :=
    avg_power_kw_mono _ _ _ _ _ _ (by norm_num) (by norm_num) hf he hd0
  set md1 : ModelData := ⟨"Муссон 300", time_points d,
    (time_points d).map (fun t => max 0 (avg_power_kw 77 f w e d * 2 * (1 - t / d))),
    avg_power_kw 77 f w e d⟩ with hmd1
  set md2 : ModelData := ⟨"Муссон 600", time_points d,
    (time_points d).map (fun t => max 0 (avg_power_kw 125 f w e d * 2 * (1 - t / d))),
    avg_power_kw 125 f w e d⟩ with hmd2
  set md3 : ModelData := ⟨"Муссон 1000", time_points d,
    (time_points d).map (fun t => max 0 (avg_power_kw 200 f w e d * 2 * (1 - t / d))),
    avg_power_kw 200 f w e d⟩ with hmd3
  set md4 : ModelData := ⟨"Муссон 1500", time_points d,
    (time_points d).map (fun t => max 0 (avg_power_kw 311 f w e d * 2 * (1 - t / d))),
    avg_power_kw 311 f w e d⟩ with hmd4
  set md5 : ModelData := ⟨"Муссон 2000", time_points d,
    (time_points d).map (fun t => max 0 (avg_power_kw 467 f w e d * 2 * (1 - t / d))),
    avg_power_kw 467 f w e d⟩ with hmd5
  set M : List ModelData := [md1, md2, md3, md4, md5] with hM
  have hmodels : all_models_data f w e d = some M := by
    rw [all_models_data, modelsData_eq f w e d hd, hM, hmd1, hmd2, hmd3, hmd4, hmd5]
    rfl
  have c1 : selectStep (0 * (12/10)) (none, 0) md1 =
      (some ("Муссон 300"), avg_power_kw 77 f w e d) := by
    rw [selectStep, if_pos]
    refine ⟨?_, ?_⟩
    · show (0:ℚ) * (12/10) ≤ avg_power_kw 77 f w e d
      nlinarith
    · show ((none : Option String), (0:ℚ)).2 < avg_power_kw 77 f w e d
      exact h77
  have c2 : selectStep (0 * (12/10)) (some ("Муссон 300"), avg_power_kw 77 f w e d) md2 =
      (some ("Муссон 600"), avg_power_kw 125 f w e d) := by
    rw [selectStep, if_pos]
    refine ⟨?_, ?_⟩
    · show (0:ℚ) * (12/10) ≤ avg_power_kw 125 f w e d
      nlinarith
    · show (some ("Муссон 300"), avg_power_kw 77 f w e d).2 < avg_power_kw 125 f w e d
      exact h12
  have c3 : selectStep (0 * (12/10)) (some ("Муссон 600"), avg_power_kw 125 f w e d) md3 =
      (some ("Муссон 1000"), avg_power_kw 200 f w e d) := by
    rw [selectStep, if_pos]
    refine ⟨?_, ?_⟩
    · show (0:ℚ) * (12/10) ≤ avg_power_kw 200 f w e d
      nlinarith
    · show (some ("Муссон 600"), avg_power_kw 125 f w e d).2 < avg_power_kw 200 f w e d
      exact h23
  have c4 : selectStep (0 * (12/10)) (some ("Муссон 1000"), avg_power_kw 200 f w e d) md4 =
      (some ("Муссон 1500"), avg_power_kw 311 f w e d) := by
    rw [selectStep, if_pos]
    refine ⟨?_, ?_⟩
    · show (0:ℚ) * (12/10) ≤ avg_power_kw 311 f w e d
      nlinarith
    · show (some ("Муссон 1000"), avg_power_kw 200 f w e d).2 < avg_power_kw 311 f w e d
      exact h34
  have c5 : selectStep (0 * (12/10)) (some ("Муссон 1500"), avg_power_kw 311 f w e d) md5 =
      (some ("Муссон 2000"), avg_power_kw 467 f w e d) := by
    rw [selectStep, if_pos]
    refine ⟨?_, ?_⟩
    · show (0:ℚ) * (12/10) ≤ avg_power_kw 467 f w e d
      nlinarith
    · show (some ("Муссон 1500"), avg_power_kw 311 f w e d).2 < avg_power_kw 467 f w e d
      exact h45
  have hsel : selectRecommended (0 * (12/10)) M =
      (some ("Муссон 2000"), avg_power_kw 467 f w e d) := by
    rw [hM, selectRecommended, List.foldl_cons, c1, List.foldl_cons, c2,
      List.foldl_cons, c3, List.foldl_cons, c4, List.foldl_cons, c5, List.foldl_nil]
  have hcas : cascadeOpt 0 (0 * (12/10)) (some ("Муссон 2000")) M = none := by
    rw [hM, cascadeOpt, if_neg]
    simp
  have hfind : M.find? (fun item => item.model = "Муссон 2000") = some md5 := by
    rw [hM, hmd1, hmd2, hmd3, hmd4, hmd5]
    rfl
  have hlastT : (time_points d).getLast? = some d := by
    have hcast : (((2*n : ℕ) : ℚ))/2 = d := by
      rw [hdd]
      push_cast
      ring
    have hgl := time_points_half_nat_getLast (2*n)
    rw [hcast] at hgl
    exact hgl
  have hrefuel : refuelFor (0 * (12/10)) (some ("Муссон 2000")) M = (n:ℚ) := by
    rw [refuelFor.eq_def]
    simp only [hfind]
    obtain ⟨g₁, g₂, hsplit, hgood, hbad, hval⟩ :=
      refuelLoop_split (0 * (12/10)) 0 (md5.time.zip md5.power)
    have hg₂nil : g₂ = [] := by
      cases hE : g₂ with
      | nil => rfl
      | cons pr tl =>
        obtain ⟨pa, pb⟩ := pr
        have hhead : (pa, pb) ∈ ((pa, pb) :: tl).head? := by simp
        have hb := hbad (pa, pb) (by rw [hE]; exact hhead)
        have hprmem : (pa, pb) ∈ md5.time.zip md5.power := by
          rw [hsplit, hE]
          exact List.mem_append_right _ (List.mem_cons_self _ _)
        have hpbmem : pb ∈ md5.power := (List.of_mem_zip hprmem).2
        have hpb : 0 ≤ pb := by
          have hpm : pb ∈ (time_points d).map
              (fun t => max 0 (avg_power_kw 467 f w e d * 2 * (1 - t / d))) := hpbmem
          obtain ⟨t, htmem, hteq⟩ := List.mem_map.mp hpm
          rw [← hteq]
          exact le_max_left 0 _
        dsimp only at hb
        nlinarith
    rw [hg₂nil, List.append_nil] at hsplit
    rw [hval, ← hsplit]
    have hmfz : (md5.time.zip md5.power).map Prod.fst = md5.time := by
      apply List.map_fst_zip
      have : md5.power = (time_points d).map
          (fun t => max 0 (avg_power_kw 467 f w e d * 2 * (1 - t / d))) := rfl
      rw [this, List.length_map]
    rw [hmfz]
    show (time_points d).getLast?.getD 0 = (n:ℚ)
    rw [hlastT]
    rw [hdd]
    rfl
  refine ⟨⟨M, some ("Муссон 2000"), avg_power_kw 467 f w e d, none, (n:ℚ)⟩, ?_, rfl, ?_, rfl, rfl⟩
  · rw [runApp, hmodels]
    simp only [hsel, hcas, hrefuel]
  · intro md hmd
    show md.avg_power ≤ avg_power_kw 467 f w e d
    rw [hM] at hmd
    simp only [List.mem_cons, List.not_mem_nil, or_false] at hmd
    rcases hmd with rfl | rfl | rfl | rfl | rfl
    · show avg_power_kw 77 f w e d ≤ avg_power_kw 467 f w e d
      linarith
    · show avg_power_kw 125 f w e d ≤ avg_power_kw 467 f w e d
      linarith
    · show avg_power_kw 200 f w e d ≤ avg_power_kw 467 f w e d
      linarith
    · show avg_power_kw 311 f w e d ≤ avg_power_kw 467 f w e d
      linarith
    · exact le_rfl


/-- C10 witness: equal temperatures, fill 80 %, conifer, efficiency
85 %, 8 h burn. -/
theorem C10_zero_load_witness :
    ((20:ℝ) ≤ 20) ∧ (0:ℚ) < 4/5 ∧ (0:ℚ) < 17/20 ∧ 1 ≤ 8 ∧
    (calculate_heat_loss 100 (5/2) 1 (5/2) (7/2) 20 20 = 0 ∧
     ∃ r, runApp 0 (4/5) WoodType.hvoynye (17/20) ((8:ℕ):ℚ) = some r ∧
       r.recommended_model = some ("Муссон 2000") ∧
       (∀ md ∈ r.models, md.avg_power ≤ r.best_model_avg_power) ∧
       r.cascade_option = none ∧
       r.refuel_time = ((8:ℕ):ℚ)) :=
  ⟨by norm_num, by norm_num, by norm_num, by norm_num,
   C10_zero_load 100 (5/2) 1 (5/2) (7/2) 20 20 (4/5) (17/20) WoodType.hvoynye 8
     (by norm_num) (by norm_num) (by norm_num) (by norm_num)⟩
